import Mathlib

/-!
Verification of the ChatBotAI repository's core data-handling logic:
conversation-memory trimming, JSON file queues, prompt assembly,
vector-store context formatting, environment-variable loading, and the
Telegram handler's error behaviour.

Files are modelled as a map from path to abstract file content: a file is
either missing, unreadable/malformed JSON, valid JSON that is not an
array, or a JSON array of entries.  Writing a JSON array and reading it
back yields the same entries (the JSON round trip).  A byte-level
refinement (`RawFileContent`) additionally models files whose bytes are
not valid UTF-8, where the loaders' narrow `except` clause lets a
`UnicodeDecodeError` escape.  Python exceptions are modelled with
`Except`; `sys.exit` is modelled as an `Except.error` result.
-/

/-- An OpenAI-style chat message dict `{"role": ..., "content": ...}`. -/
structure Msg where
  role : String
  content : String
deriving DecidableEq, Repr

/-- Content of one file on disk as seen by the JSON loaders on their
caught error paths, i.e. once the file's bytes have decoded as UTF-8:
missing file, a caught read failure or JSON parse failure (`invalid`),
valid JSON that is not an array, or a JSON array of entries of type
`α`.  `RawFileContent` below refines this with the undecodable-bytes
case, whose `UnicodeDecodeError` the loaders do not catch. -/
inductive FileContent (α : Type) where
  | missing : FileContent α
  | invalid : FileContent α
  | jsonNonList : FileContent α
  | jsonList (entries : List α) : FileContent α
deriving DecidableEq, Repr

/-- A file system: each path holds some file content. -/
abbrev FS (α : Type) := String → FileContent α

/-- Overwrite one path of a file system with a JSON array of entries
(models `json.dump` / `Path.write_text` of a serialized list). -/
def fsWrite (fs : FS α) (path : String) (entries : List α) : FS α :=
  fun p => if p = path then FileContent.jsonList entries else fs p

/-- The last `n` elements of a list: Python's `xs[-n:]` for `n > 0`,
and the trimmed tail a bounded deque keeps. -/
def lastN (n : Nat) (xs : List α) : List α :=
  xs.drop (xs.length - n)

/-- `load_queue` from `telegram/utils/queue_manager.py` on decodable
file contents: return the entries of a JSON queue file; an absent file,
a caught read or JSON parse error, or a JSON document that is not a
list all yield `[]`.  `load_queue_bytes` below also models the uncaught
`UnicodeDecodeError` on undecodable bytes. -/
def load_queue (fs : FS α) (queue_path : String) : List α :=
  match fs queue_path with
  | FileContent.jsonList entries => entries
  | _ => []

/-- `save_queue` from `telegram/utils/queue_manager.py`: overwrite the
queue file with the given entries. -/
def save_queue (fs : FS α) (queue_path : String) (entries : List α) : FS α :=
  fsWrite fs queue_path entries

/-- `append_queue` from `telegram/utils/queue_manager.py`: load the
entries, append one, save the result. -/
def append_queue (fs : FS α) (queue_path : String) (entry : α) : FS α :=
  save_queue fs queue_path (load_queue fs queue_path ++ [entry])

/-- `clear_queue` from `telegram/utils/queue_manager.py`: reset the
queue file to the empty JSON array `[]`. -/
def clear_queue (fs : FS α) (queue_path : String) : FS α :=
  fsWrite fs queue_path []

/-- `load_memory` from `ChatBotGeneric/memory.py` on decodable file
contents: read the history list from a JSON file; an absent file, a
caught read or parse error, or a non-list document all yield `[]`.
`load_memory_bytes` below also models the uncaught `UnicodeDecodeError`
on undecodable bytes. -/
def load_memory (fs : FS Msg) (memory_path : String) : List Msg :=
  match fs memory_path with
  | FileContent.jsonList data => data
  | _ => []

/-- `save_memory` from `ChatBotGeneric/memory.py`: write the history
trimmed to the last `max_pairs` user/assistant pairs (`max_pairs * 2`
messages); `max_pairs = 0` keeps nothing, a negative value keeps all. -/
def save_memory (fs : FS Msg) (memory_path : String) (history : List Msg)
    (max_pairs : Int) : FS Msg :=
  let trimmed :=
    if max_pairs ≥ 0 then
      let max_messages := (max_pairs * 2).toNat
      if max_messages > 0 then lastN max_messages history else []
    else history
  fsWrite fs memory_path trimmed

/-- The fixed history file used by `agent/agent.py` (`MEMORY_PATH`). -/
def MEMORY_PATH : String := "agent/memory.json"

/-- `load_memory` from `agent/agent.py`: like the generic loader but on
the fixed path `MEMORY_PATH`. -/
def load_memory_agent (fs : FS Msg) : List Msg :=
  match fs MEMORY_PATH with
  | FileContent.jsonList data => data
  | _ => []

/-- `save_memory` from `agent/agent.py`: write the history to
`MEMORY_PATH` trimmed to the last `max_history` pairs
(`max_history * 2` messages), keeping nothing when that bound is 0. -/
def save_memory_agent (fs : FS Msg) (history : List Msg)
    (max_history : Int) : FS Msg :=
  let max_messages := max_history * 2
  let trimmed :=
    if max_messages > 0 then lastN max_messages.toNat history else []
  fsWrite fs MEMORY_PATH trimmed

/-- The one Python exception the JSON loaders let escape: the
`UnicodeDecodeError` raised when a file's bytes are not valid UTF-8. -/
inductive PyExc where
  | unicodeDecodeError : PyExc
deriving DecidableEq, Repr

/-- Byte-level content of one file, before UTF-8 decoding.  The
loaders' `except (json.JSONDecodeError, OSError)` clause catches a read
failure (`unreadable`, an `OSError`) and a JSON parse failure on
decoded text (`malformedJson`, a `json.JSONDecodeError`), but not the
`UnicodeDecodeError` raised for `undecodable` bytes, which is a
`ValueError`. -/
inductive RawFileContent (α : Type) where
  | missing : RawFileContent α
  | undecodable : RawFileContent α
  | unreadable : RawFileContent α
  | malformedJson : RawFileContent α
  | jsonNonList : RawFileContent α
  | jsonList (entries : List α) : RawFileContent α
deriving DecidableEq, Repr

/-- `load_queue` from `telegram/utils/queue_manager.py` at the byte
level: a missing file, a caught `OSError`, a caught `JSONDecodeError`,
and a non-array document yield `[]`, and a JSON array yields its
entries, but a file whose bytes are not valid UTF-8 makes
`path.read_text(encoding="utf-8")` raise `UnicodeDecodeError`, which
the `except` clause does not name, so it propagates to the caller. -/
def load_queue_bytes (fs : String → RawFileContent α)
    (queue_path : String) : Except PyExc (List α) :=
  match fs queue_path with
  | RawFileContent.undecodable => Except.error PyExc.unicodeDecodeError
  | RawFileContent.jsonList entries => Except.ok entries
  | _ => Except.ok []

/-- `load_memory` from `ChatBotGeneric/memory.py` at the byte level:
same shape as `load_queue_bytes` — `json.load` on a text-mode file
raises the same `UnicodeDecodeError` for undecodable bytes, inside the
`try` but not caught by its `except (json.JSONDecodeError, OSError)`
clause. -/
def load_memory_bytes (fs : String → RawFileContent Msg)
    (memory_path : String) : Except PyExc (List Msg) :=
  match fs memory_path with
  | RawFileContent.undecodable => Except.error PyExc.unicodeDecodeError
  | RawFileContent.jsonList data => Except.ok data
  | _ => Except.ok []

/-- UTF-8 decoding of byte-level file content: `none` for undecodable
bytes, otherwise the decoded-level `FileContent` the caught-path
loaders see (`unreadable` and `malformedJson` both land in
`FileContent.invalid`). -/
def decodeRaw : RawFileContent α → Option (FileContent α)
  | RawFileContent.missing => some FileContent.missing
  | RawFileContent.undecodable => none
  | RawFileContent.unreadable => some FileContent.invalid
  | RawFileContent.malformedJson => some FileContent.invalid
  | RawFileContent.jsonNonList => some FileContent.jsonNonList
  | RawFileContent.jsonList entries => some (FileContent.jsonList entries)

lemma load_queue_bytes_eq_on_decodable (rfs : String → RawFileContent α)
    (p : String) (h : rfs p ≠ RawFileContent.undecodable) :
    load_queue_bytes rfs p
      = Except.ok (load_queue
          (fun q => (decodeRaw (rfs q)).getD FileContent.invalid) p) := by
  cases hr : rfs p with
  | undecodable => exact absurd hr h
  | missing => simp [load_queue_bytes, load_queue, decodeRaw, hr]
  | unreadable => simp [load_queue_bytes, load_queue, decodeRaw, hr]
  | malformedJson => simp [load_queue_bytes, load_queue, decodeRaw, hr]
  | jsonNonList => simp [load_queue_bytes, load_queue, decodeRaw, hr]
  | jsonList entries => simp [load_queue_bytes, load_queue, decodeRaw, hr]

lemma load_memory_bytes_eq_on_decodable (rfs : String → RawFileContent Msg)
    (p : String) (h : rfs p ≠ RawFileContent.undecodable) :
    load_memory_bytes rfs p
      = Except.ok (load_memory
          (fun q => (decodeRaw (rfs q)).getD FileContent.invalid) p) := by
  cases hr : rfs p with
  | undecodable => exact absurd hr h
  | missing => simp [load_memory_bytes, load_memory, decodeRaw, hr]
  | unreadable => simp [load_memory_bytes, load_memory, decodeRaw, hr]
  | malformedJson => simp [load_memory_bytes, load_memory, decodeRaw, hr]
  | jsonNonList => simp [load_memory_bytes, load_memory, decodeRaw, hr]
  | jsonList data => simp [load_memory_bytes, load_memory, decodeRaw, hr]

lemma load_queue_fsWrite_self (fs : FS α) (p : String) (xs : List α) :
    load_queue (fsWrite fs p xs) p = xs := by
  simp [load_queue, fsWrite]

lemma load_memory_fsWrite_self (fs : FS Msg) (p : String) (xs : List Msg) :
    load_memory (fsWrite fs p xs) p = xs := by
  simp [load_memory, fsWrite]

lemma lastN_zero (xs : List α) : lastN 0 xs = [] := by
  simp [lastN]

/-- Claim C1: for every history and every `max_pairs ≥ 0`, `save_memory`
(both the `ChatBotGeneric/memory.py` and the `agent/agent.py` variant)
persists exactly the last `max_pairs * 2` elements of the history — the
whole history when it is shorter, and `[]` when `max_pairs = 0` — and
the persisted list is a suffix of the history, so no element is
reordered or modified. -/
theorem save_memory_persists_last_pairs (fs : FS Msg) (path : String)
    (history : List Msg) (max_pairs : Nat) :
    load_memory (save_memory fs path history (max_pairs : Int)) path
      = history.drop (history.length - max_pairs * 2)
    ∧ load_memory_agent (save_memory_agent fs history (max_pairs : Int))
      = history.drop (history.length - max_pairs * 2)
    ∧ history.drop (history.length - max_pairs * 2) <:+ history := by
  have hdrop : history.drop (history.length - max_pairs * 2) <:+ history :=
    List.drop_suffix _ _
  have htoNat : ((max_pairs : Int) * 2).toNat = max_pairs * 2 := by
    omega
  rcases Nat.eq_zero_or_pos max_pairs with h0 | hpos
  · subst h0
    refine ⟨?_, ?_, by simp⟩
    · simp [save_memory, load_memory_fsWrite_self, lastN]
    · simp [save_memory_agent, load_memory_agent, load_memory,
        fsWrite, MEMORY_PATH, lastN]
  · have hgt : ((max_pairs : Int) * 2) > 0 := by
      omega
    refine ⟨?_, ?_, hdrop⟩
    · simp only [save_memory, load_memory_fsWrite_self]
      rw [if_pos (by omega : (max_pairs : Int) ≥ 0), htoNat,
        if_pos (by omega : max_pairs * 2 > 0)]
      rfl
    · simp only [save_memory_agent]
      rw [if_pos hgt, htoNat]
      simp [load_memory_agent, load_memory, fsWrite, lastN]

/-- Claim C3: in single-writer use, appending an entry to a JSON queue
file and loading it back yields the previous contents with the entry at
the end (the empty list playing the role of a missing file), and
clearing then loading yields the empty list. -/
theorem queue_append_then_load (α : Type) (fs : FS α) (path : String)
    (e : α) :
    load_queue (append_queue fs path e) path = load_queue fs path ++ [e]
    ∧ load_queue (clear_queue fs path) path = [] := by
  constructor
  · simp [append_queue, save_queue, load_queue_fsWrite_self]
  · simp [clear_queue, load_queue_fsWrite_self]

/-- Claim C10 (refuted by the code): the loaders are not total at the
public interface.  A file whose bytes are not valid UTF-8 makes both
`load_queue` and `load_memory` raise `UnicodeDecodeError` — the
`except (json.JSONDecodeError, OSError)` clause does not catch it —
although both docstrings promise `[]` for an invalid file.  On every
other file content the claimed defaults do hold: `[]` for a missing
file, a caught read or JSON-parse error, or a non-array document, and
the parsed entries for a JSON array. -/
theorem load_queue_load_memory_raise_on_undecodable :
    load_queue_bytes
        (fun _ => (RawFileContent.undecodable : RawFileContent Nat))
        "queue.json"
      = Except.error PyExc.unicodeDecodeError
    ∧ load_memory_bytes (fun _ => RawFileContent.undecodable) "memory.json"
      = Except.error PyExc.unicodeDecodeError
    ∧ load_queue_bytes
        (fun _ => (RawFileContent.missing : RawFileContent Nat))
        "queue.json" = Except.ok []
    ∧ load_queue_bytes
        (fun _ => (RawFileContent.unreadable : RawFileContent Nat))
        "queue.json" = Except.ok []
    ∧ load_queue_bytes
        (fun _ => (RawFileContent.malformedJson : RawFileContent Nat))
        "queue.json" = Except.ok []
    ∧ load_queue_bytes
        (fun _ => (RawFileContent.jsonNonList : RawFileContent Nat))
        "queue.json" = Except.ok []
    ∧ load_queue_bytes (fun _ => RawFileContent.jsonList [7]) "queue.json"
      = Except.ok [7]
    ∧ load_memory_bytes (fun _ => RawFileContent.missing) "memory.json"
      = Except.ok []
    ∧ load_memory_bytes (fun _ => RawFileContent.malformedJson) "memory.json"
      = Except.ok []
    ∧ load_memory_bytes (fun _ => RawFileContent.jsonList [⟨"user", "hi"⟩])
        "memory.json"
      = Except.ok [⟨"user", "hi"⟩] :=
  ⟨rfl, rfl, rfl, rfl, rfl, rfl, rfl, rfl, rfl, rfl⟩

/-- Python `deque(maxlen)` append on a buffer holding at most `maxlen`
elements: add `x` at the right, discarding from the left so that at most
`maxlen` elements remain. -/
def dequeAppend (maxlen : Nat) (xs : List Msg) (x : Msg) : List Msg :=
  lastN maxlen (xs ++ [x])

/-- `SimpleMemory` from `memory.py`: a per-chat bounded message buffer,
a `defaultdict` of `deque(maxlen = max_messages)` keyed by chat id. -/
structure SimpleMemory where
  max_messages : Nat
  store : Int → List Msg

/-- A fresh `SimpleMemory`: every chat id maps to an empty buffer. -/
def SimpleMemory.init (max_messages : Nat) : SimpleMemory :=
  ⟨max_messages, fun _ => []⟩

/-- `SimpleMemory.add_user_message`: append `{"role": "user"}` to the
chat's deque. -/
def SimpleMemory.add_user_message (mem : SimpleMemory) (chat_id : Int)
    (text : String) : SimpleMemory :=
  { mem with store := fun c =>
      if c = chat_id then
        dequeAppend mem.max_messages (mem.store chat_id) ⟨"user", text⟩
      else mem.store c }

/-- `SimpleMemory.add_assistant_message`: append `{"role": "assistant"}`
to the chat's deque. -/
def SimpleMemory.add_assistant_message (mem : SimpleMemory) (chat_id : Int)
    (text : String) : SimpleMemory :=
  { mem with store := fun c =>
      if c = chat_id then
        dequeAppend mem.max_messages (mem.store chat_id) ⟨"assistant", text⟩
      else mem.store c }

/-- `SimpleMemory.get_history`: the chat's buffer as a list. -/
def SimpleMemory.get_history (mem : SimpleMemory) (chat_id : Int) :
    List Msg :=
  mem.store chat_id

/-- `SimpleMemory.clear`: empty the chat's deque. -/
def SimpleMemory.clear (mem : SimpleMemory) (chat_id : Int) :
    SimpleMemory :=
  { mem with store := fun c => if c = chat_id then [] else mem.store c }

/-- One call in a sequence of `add_user_message` / `add_assistant_message`
operations. -/
inductive MemOp where
  | user (chat_id : Int) (text : String)
  | assistant (chat_id : Int) (text : String)
deriving DecidableEq, Repr

/-- Apply one memory operation. -/
def applyOp (mem : SimpleMemory) : MemOp → SimpleMemory
  | MemOp.user c t => mem.add_user_message c t
  | MemOp.assistant c t => mem.add_assistant_message c t

/-- Run a sequence of memory operations left to right. -/
def runOps (mem : SimpleMemory) (ops : List MemOp) : SimpleMemory :=
  ops.foldl applyOp mem

/-- The chat id an operation targets. -/
def opChat : MemOp → Int
  | MemOp.user c _ => c
  | MemOp.assistant c _ => c

/-- The message dict an operation appends. -/
def opMsg : MemOp → Msg
  | MemOp.user _ t => ⟨"user", t⟩
  | MemOp.assistant _ t => ⟨"assistant", t⟩

/-- All messages a sequence of operations appends to one chat, in
order. -/
def appendedMsgs (ops : List MemOp) (chat_id : Int) : List Msg :=
  ops.filterMap (fun op => if opChat op = chat_id then some (opMsg op) else none)

lemma lastN_append_one (m : Nat) (xs : List α) (x : α) :
    lastN m (lastN m xs ++ [x]) = lastN m (xs ++ [x]) := by
  unfold lastN
  rcases Nat.lt_or_ge xs.length m with hlt | hge
  · have h0 : xs.length - m = 0 := by omega
    simp [h0]
  · rcases Nat.eq_zero_or_pos m with hm0 | hmpos
    · subst hm0
      simp
    · have hlen : (xs.drop (xs.length - m)).length = m := by
        simp
        omega
      have hidx : (xs.drop (xs.length - m) ++ [x]).length - m = 1 := by
        simp [hlen]
      have hidx2 : (xs ++ [x]).length - m = xs.length + 1 - m := by
        simp
      rw [hidx, hidx2]
      rw [List.drop_append_of_le_length (by rw [hlen]; omega),
        List.drop_append_of_le_length (by omega)]
      rw [List.drop_drop]
      have harith : xs.length - m + 1 = xs.length + 1 - m := by omega
      rw [harith]

lemma applyOp_max (mem : SimpleMemory) (op : MemOp) :
    (applyOp mem op).max_messages = mem.max_messages := by
  cases op <;> rfl

lemma runOps_max (mem : SimpleMemory) (ops : List MemOp) :
    (runOps mem ops).max_messages = mem.max_messages := by
  induction ops generalizing mem with
  | nil => rfl
  | cons op ops ih =>
    show (runOps (applyOp mem op) ops).max_messages = _
    rw [ih, applyOp_max]

lemma store_applyOp (mem : SimpleMemory) (op : MemOp) (c : Int) :
    (applyOp mem op).store c =
      if c = opChat op then
        dequeAppend mem.max_messages (mem.store (opChat op)) (opMsg op)
      else mem.store c := by
  cases op <;> rfl

lemma appendedMsgs_append_one (ops : List MemOp) (op : MemOp) (c : Int) :
    appendedMsgs (ops ++ [op]) c
      = appendedMsgs ops c
        ++ (if opChat op = c then [opMsg op] else []) := by
  simp only [appendedMsgs, List.filterMap_append]
  congr 1
  by_cases h : opChat op = c <;> simp [List.filterMap, h]

lemma runOps_append_one (mem : SimpleMemory) (ops : List MemOp)
    (op : MemOp) :
    runOps mem (ops ++ [op]) = applyOp (runOps mem ops) op := by
  simp [runOps, List.foldl_append]

lemma runOps_store (N : Nat) (ops : List MemOp) :
    ∀ c, (runOps (SimpleMemory.init N) ops).store c
      = lastN N (appendedMsgs ops c) := by
  induction ops using List.reverseRecOn with
  | nil =>
    intro c
    simp [runOps, SimpleMemory.init, appendedMsgs, lastN]
  | append_singleton ops op ih =>
    intro c
    rw [runOps_append_one, store_applyOp, runOps_max,
      appendedMsgs_append_one]
    by_cases hc : c = opChat op
    · subst hc
      rw [if_pos rfl, if_pos rfl, ih _, dequeAppend]
      exact lastN_append_one N (appendedMsgs ops (opChat op)) (opMsg op)
    · rw [if_neg hc, if_neg (fun h => hc h.symm), ih c]
      simp

/-- Claim C2 (amended): for every configured maximum `N` and every
sequence of `add_user_message` / `add_assistant_message` calls, the
`SimpleMemory` buffer for a chat id is trimmed on write to the last `N`
individual messages appended to that chat (not the last `N` pairs):
`get_history` is exactly the last-`N` suffix of the appended messages,
so it has at most `N` entries, the most recently appended ones in
order. -/
theorem simple_memory_trims_to_last_messages (N : Nat) (ops : List MemOp)
    (chat_id : Int) :
    (runOps (SimpleMemory.init N) ops).get_history chat_id
      = lastN N (appendedMsgs ops chat_id)
    ∧ ((runOps (SimpleMemory.init N) ops).get_history chat_id).length ≤ N
    ∧ (runOps (SimpleMemory.init N) ops).get_history chat_id
        <:+ appendedMsgs ops chat_id := by
  have h := runOps_store N ops chat_id
  refine ⟨h, ?_, ?_⟩
  · show ((runOps (SimpleMemory.init N) ops).store chat_id).length ≤ N
    rw [h]
    simp [lastN]
    omega
  · show (runOps (SimpleMemory.init N) ops).store chat_id
        <:+ appendedMsgs ops chat_id
    rw [h]
    exact List.drop_suffix _ _

/-- Counterexample to claim C2 as stated: with configured maximum
history 1, after appending one user and one assistant message to chat 0
the buffer holds only the last 1 message — not the last 1 pair (2
messages) that the claim predicts. -/
theorem simple_memory_pair_trim_counterexample :
    (runOps (SimpleMemory.init 1)
        [MemOp.user 0 "a", MemOp.assistant 0 "b"]).get_history 0
      = [⟨"assistant", "b"⟩]
    ∧ (runOps (SimpleMemory.init 1)
        [MemOp.user 0 "a", MemOp.assistant 0 "b"]).get_history 0
      ≠ [⟨"user", "a"⟩, ⟨"assistant", "b"⟩] := by
  constructor
  · decide
  · decide

/-- Claim C9: each `SimpleMemory` operation on one chat id
(`add_user_message`, `add_assistant_message`, `clear`) leaves the
history returned by `get_history` for every other chat id unchanged. -/
theorem simple_memory_frame (mem : SimpleMemory) (chat_id other : Int)
    (text : String) (h : other ≠ chat_id) :
    (mem.add_user_message chat_id text).get_history other
      = mem.get_history other
    ∧ (mem.add_assistant_message chat_id text).get_history other
      = mem.get_history other
    ∧ (mem.clear chat_id).get_history other = mem.get_history other := by
  refine ⟨?_, ?_, ?_⟩ <;>
    simp [SimpleMemory.add_user_message, SimpleMemory.add_assistant_message,
      SimpleMemory.clear, SimpleMemory.get_history, h]

/-- Witness for C9 at a concrete memory: writing to chat 0 leaves chat 1
untouched. -/
theorem simple_memory_frame_witness :
    (1 : Int) ≠ 0
    ∧ ((SimpleMemory.init 3).add_user_message 0 "hi").get_history 1
        = (SimpleMemory.init 3).get_history 1 :=
  ⟨by decide,
   (simple_memory_frame (SimpleMemory.init 3) 0 1 "hi" (by decide)).1⟩

/-- The context preamble `build_messages` prepends to the retrieved
knowledge-base text. -/
def contextPreamble : String :=
  "Use the following knowledge base context to answer the user's question:\n\n"

/-- `build_messages` from `ChatBotGeneric/chat.py` (the same
construction appears inline in `chat` of `agent/agent.py`): a system
message, an optional context system message when the context string is
truthy (non-empty), the history, then the user question. -/
def build_messages (system_prompt context : String) (history : List Msg)
    (question : String) : List Msg :=
  let messages := [(⟨"system", system_prompt⟩ : Msg)]
  let messages :=
    if context ≠ "" then
      messages ++ [⟨"system", contextPreamble ++ context⟩]
    else messages
  let messages := messages ++ history
  messages ++ [⟨"user", question⟩]

/-- Claim C4: `build_messages` returns the system-prompt message, then
a context system message exactly when the context is non-empty, then the
history unchanged and in order, then the user question; its length is
`history.length + 2` with empty context and `history.length + 3`
otherwise. -/
theorem build_messages_shape (system_prompt context : String)
    (history : List Msg) (question : String) :
    build_messages system_prompt context history question
      = [(⟨"system", system_prompt⟩ : Msg)]
        ++ (if context = "" then []
            else [⟨"system", contextPreamble ++ context⟩])
        ++ history ++ [⟨"user", question⟩]
    ∧ (build_messages system_prompt context history question).length
      = history.length + (if context = "" then 2 else 3) := by
  by_cases hctx : context = "" <;>
    simp [build_messages, hctx]

/-- The canned apology the Telegram text handler replies with when the
agent raises (`bot.py` and `services/telegram/handlers.py`). -/
def DEFAULT_ERROR_REPLY : String :=
  "Sorry, something went wrong. Please try again later."

/-- `handle_text_message` from `bot.py` (same body as the one registered
in `services/telegram/handlers.py`): run the agent on the incoming text,
catching any exception, and reply with the agent's text on success or
with `DEFAULT_ERROR_REPLY` on failure.  The reply sent back to Telegram
is the returned string; the agent is a function that may raise, modelled
as `Except`. -/
def handle_text_message (ε : Type)
    (agent : Int → String → Except ε String)
    (chat_id : Int) (user_text : String) : String :=
  match agent chat_id user_text with
  | Except.ok reply => reply
  | Except.error _ => DEFAULT_ERROR_REPLY

/-- Claim C5: for every incoming text message, if the agent raises any
exception the handler replies with the fixed default string, and
otherwise it replies with the agent's returned text. -/
theorem handler_catches_agent_error (ε : Type)
    (agent : Int → String → Except ε String)
    (chat_id : Int) (user_text : String) :
    (∀ e, agent chat_id user_text = Except.error e →
      handle_text_message ε agent chat_id user_text = DEFAULT_ERROR_REPLY)
    ∧ (∀ s, agent chat_id user_text = Except.ok s →
      handle_text_message ε agent chat_id user_text = s) := by
  constructor
  · intro e he
    simp [handle_text_message, he]
  · intro s hs
    simp [handle_text_message, hs]

/-- Witness for C5 at concrete agents: a raising agent yields the canned
apology, a succeeding agent's text is forwarded verbatim. -/
theorem handler_catches_agent_error_witness :
    handle_text_message Unit (fun _ _ => Except.error ()) 0 "hi"
      = DEFAULT_ERROR_REPLY
    ∧ handle_text_message Unit (fun _ _ => Except.ok "ok!") 0 "hi"
      = "ok!" :=
  ⟨(handler_catches_agent_error Unit (fun _ _ => Except.error ()) 0 "hi").1
      () rfl,
   (handler_catches_agent_error Unit (fun _ _ => Except.ok "ok!") 0 "hi").2
      "ok!" rfl⟩

/-- The exit message `_require` prints for a missing key
(`config.py`). -/
def requireErrorMsg (key : String) : String :=
  "ERROR: Missing required environment variable: " ++ key
    ++ ". See .env.example for reference."

/-- `_require` from `config.py`: return the environment variable's
value, or exit (modelled as `Except.error`) with a message naming the
key when the variable is unset or empty (Python's `if not value`). -/
def _require (env : String → Option String) (key : String) :
    Except String String :=
  match env key with
  | none => Except.error (requireErrorMsg key)
  | some value =>
      if value = "" then Except.error (requireErrorMsg key)
      else Except.ok value

/-- Claim C7: `_require` returns the variable's value when it is set to
a non-empty string, terminates with an error message naming the missing
key when it is unset or empty, and never returns an empty or missing
value. -/
theorem require_returns_value_or_exits (env : String → Option String)
    (key : String) :
    (∀ v, env key = some v → v ≠ "" →
      _require env key = Except.ok v)
    ∧ (env key = none →
      _require env key = Except.error (requireErrorMsg key))
    ∧ (env key = some "" →
      _require env key = Except.error (requireErrorMsg key))
    ∧ (∀ v, _require env key = Except.ok v →
      v ≠ "" ∧ env key = some v) := by
  refine ⟨?_, ?_, ?_, ?_⟩
  · intro v hv hne
    simp [_require, hv, hne]
  · intro h
    simp [_require, h]
  · intro h
    simp [_require, h]
  · intro v hv
    cases henv : env key with
    | none => simp [_require, henv] at hv
    | some w =>
      by_cases hw : w = ""
      · simp [_require, henv, hw] at hv
      · simp [_require, henv, hw] at hv
        subst hv
        exact ⟨hw, rfl⟩

/-- Witness for C7 at a concrete environment: a set non-empty variable
is returned, a missing one and an empty one exit with the message naming
the key. -/
theorem require_returns_value_or_exits_witness :
    _require (fun k => if k = "A" then some "x"
        else if k = "B" then some "" else none) "A" = Except.ok "x"
    ∧ _require (fun k => if k = "A" then some "x"
        else if k = "B" then some "" else none) "B"
      = Except.error (requireErrorMsg "B")
    ∧ _require (fun k => if k = "A" then some "x"
        else if k = "B" then some "" else none) "C"
      = Except.error (requireErrorMsg "C") :=
  ⟨(require_returns_value_or_exits
      (fun k => if k = "A" then some "x"
        else if k = "B" then some "" else none) "A").1 "x" rfl
      (by decide),
   (require_returns_value_or_exits
      (fun k => if k = "A" then some "x"
        else if k = "B" then some "" else none) "B").2.2.1 rfl,
   (require_returns_value_or_exits
      (fun k => if k = "A" then some "x"
        else if k = "B" then some "" else none) "C").2.1 rfl⟩

/-- The header `ChatBotAgent.handle_message` inserts between the system
prompt and the retrieved context (`agent.py`). -/
def kbContextHeader : String := "\n\n--- Knowledge Base Context ---\n"

/-- The message list `ChatBotAgent.handle_message` sends to the chat
model (`agent.py`): one system message, with the knowledge-base context
appended when non-empty, then the chat's history, then the user
message. -/
def agentMessages (system_prompt context : String) (history : List Msg)
    (user_text : String) : List Msg :=
  let system_content :=
    if context ≠ "" then system_prompt ++ kbContextHeader ++ context
    else system_prompt
  [(⟨"system", system_content⟩ : Msg)] ++ history ++ [⟨"user", user_text⟩]

/-- `ChatBotAgent.handle_message` from `agent.py`, with its two external
calls — vector-store retrieval and chat completion — passed in as
fallible functions and the mutable `SimpleMemory` threaded explicitly.
The memory is returned alongside the outcome because a raised Python
exception leaves the agent's memory object as it was: retrieval, prompt
assembly and completion all happen before any memory write, and the user
and assistant messages are persisted only after a successful
completion. -/
def ChatBotAgent.handle_message (ε : Type)
    (get_context : String → Except ε String)
    (complete : List Msg → Except ε String)
    (system_prompt : String) (memory : SimpleMemory)
    (chat_id : Int) (user_text : String) :
    SimpleMemory × Except ε String :=
  match get_context user_text with
  | Except.error e => (memory, Except.error e)
  | Except.ok context =>
    match complete (agentMessages system_prompt context
        (memory.get_history chat_id) user_text) with
    | Except.error e => (memory, Except.error e)
    | Except.ok reply =>
      ((memory.add_user_message chat_id user_text).add_assistant_message
          chat_id reply,
        Except.ok reply)

/-- Claim C8: when the chat-completion call inside
`ChatBotAgent.handle_message` raises, the conversation memory is
returned exactly as it was — nothing is persisted for any chat id — and
both messages are persisted only after a successful completion. -/
theorem handle_message_no_persist_on_error (ε : Type)
    (get_context : String → Except ε String)
    (complete : List Msg → Except ε String)
    (system_prompt : String) (memory : SimpleMemory)
    (chat_id : Int) (user_text : String) :
    (∀ context e, get_context user_text = Except.ok context →
      complete (agentMessages system_prompt context
        (memory.get_history chat_id) user_text) = Except.error e →
      ChatBotAgent.handle_message ε get_context complete system_prompt
        memory chat_id user_text = (memory, Except.error e))
    ∧ (∀ context reply, get_context user_text = Except.ok context →
      complete (agentMessages system_prompt context
        (memory.get_history chat_id) user_text) = Except.ok reply →
      ChatBotAgent.handle_message ε get_context complete system_prompt
        memory chat_id user_text
        = ((memory.add_user_message chat_id user_text).add_assistant_message
            chat_id reply,
          Except.ok reply)) := by
  constructor
  · intro context e hctx hcomp
    simp [ChatBotAgent.handle_message, hctx, hcomp]
  · intro context reply hctx hcomp
    simp [ChatBotAgent.handle_message, hctx, hcomp]

/-- Witness for C8 at a concrete agent: a failing completion hands the
memory back untouched, a succeeding one appends exactly the user and
assistant messages. -/
theorem handle_message_no_persist_on_error_witness :
    ChatBotAgent.handle_message Unit (fun _ => Except.ok "ctx")
      (fun _ => Except.error ()) "sys" (SimpleMemory.init 4) 0 "hi"
      = (SimpleMemory.init 4, Except.error ())
    ∧ ChatBotAgent.handle_message Unit (fun _ => Except.ok "ctx")
      (fun _ => Except.ok "hello") "sys" (SimpleMemory.init 4) 0 "hi"
      = (((SimpleMemory.init 4).add_user_message 0 "hi").add_assistant_message
          0 "hello",
        Except.ok "hello") :=
  ⟨(handle_message_no_persist_on_error Unit (fun _ => Except.ok "ctx")
      (fun _ => Except.error ()) "sys" (SimpleMemory.init 4) 0 "hi").1
      "ctx" () rfl rfl,
   (handle_message_no_persist_on_error Unit (fun _ => Except.ok "ctx")
      (fun _ => Except.ok "hello") "sys" (SimpleMemory.init 4) 0 "hi").2
      "ctx" "hello" rfl rfl⟩

/-- One raw Pinecone query match: id, similarity score, and the
optional `"text"` field of its metadata (`none` when the metadata lacks
it).  Scores are modelled as rationals. -/
structure PMatch where
  id : String
  score : ℚ
  metadataText : Option String
deriving DecidableEq, Repr

/-- A processed result dict of `VectorStore.query` in `vector_store.py`:
`{"id", "score", "text"}`, the text defaulting to `""` when the match
metadata has no `"text"` field. -/
structure Doc where
  id : String
  score : ℚ
  text : String
deriving DecidableEq, Repr

/-- `VectorStore.query` from `vector_store.py`, as a function of the
matches the hosted index returned: the loop building `docs`. -/
def VectorStore.query (matchList : List PMatch) : List Doc :=
  matchList.foldl
    (fun docs m => docs ++ [⟨m.id, m.score, m.metadataText.getD ""⟩]) []

/-- Python's `sep.join(parts)`. -/
def pyJoin (sep : String) : List String → String
  | [] => ""
  | [c] => c
  | c :: cs => c ++ sep ++ pyJoin sep cs

/-- The chunk loop of `VectorStore.get_context` in `vector_store.py`:
`enumerate(docs, i)` formatted as `"[i] text"`. -/
def numberChunksFrom (i : Nat) : List Doc → List String
  | [] => []
  | d :: ds =>
    ("[" ++ toString i ++ "] " ++ d.text) :: numberChunksFrom (i + 1) ds

/-- `VectorStore.get_context` from `vector_store.py`: empty when there
are no docs, otherwise the numbered chunks joined by blank lines. -/
def VectorStore.get_context (matchList : List PMatch) : String :=
  let docs := VectorStore.query matchList
  if docs.isEmpty then ""
  else pyJoin "\n\n" (numberChunksFrom 1 docs)

/-- `VectorStore.query` / `query_text` from
`tools/pinecone/vector_store.py`, as a function of the returned matches,
with the metadata's `"text"` field read out the way the tools-variant
`get_context` does. -/
def ToolsVectorStore.query_text (matchList : List PMatch) : List Doc :=
  matchList.foldl
    (fun output m => output ++ [⟨m.id, m.score, m.metadataText.getD ""⟩]) []

/-- The chunk loop of the tools-variant `get_context`: docs scoring
below `min_score` are skipped (`continue`) but keep their enumeration
index. -/
def numberChunksMinFrom (min_score : ℚ) (i : Nat) : List Doc → List String
  | [] => []
  | d :: ds =>
    if d.score < min_score then numberChunksMinFrom min_score (i + 1) ds
    else ("[" ++ toString i ++ "] " ++ d.text)
      :: numberChunksMinFrom min_score (i + 1) ds

/-- `VectorStore.get_context` from `tools/pinecone/vector_store.py`:
empty when there are no docs, otherwise the numbered chunks of the docs
scoring at least `min_score`, joined by blank lines. -/
def ToolsVectorStore.get_context (matchList : List PMatch)
    (min_score : ℚ) : String :=
  let docs := ToolsVectorStore.query_text matchList
  if docs.isEmpty then ""
  else pyJoin "\n\n" (numberChunksMinFrom min_score 1 docs)

lemma foldl_push_eq_map (f : α → β) (acc : List β) (xs : List α) :
    xs.foldl (fun a m => a ++ [f m]) acc = acc ++ xs.map f := by
  induction xs generalizing acc with
  | nil => simp
  | cons x xs ih => simp [List.foldl_cons, ih]

lemma VectorStore.query_eq_map (matchList : List PMatch) :
    VectorStore.query matchList
      = matchList.map (fun m => (⟨m.id, m.score, m.metadataText.getD ""⟩ : Doc)) := by
  have h := foldl_push_eq_map
    (fun m : PMatch => (⟨m.id, m.score, m.metadataText.getD ""⟩ : Doc))
    [] matchList
  simpa [VectorStore.query] using h

lemma ToolsVectorStore.query_text_eq_map (matchList : List PMatch) :
    ToolsVectorStore.query_text matchList
      = matchList.map (fun m => (⟨m.id, m.score, m.metadataText.getD ""⟩ : Doc)) := by
  have h := foldl_push_eq_map
    (fun m : PMatch => (⟨m.id, m.score, m.metadataText.getD ""⟩ : Doc))
    [] matchList
  simpa [ToolsVectorStore.query_text] using h

lemma numberChunksFrom_eq_enumFrom (i : Nat) (ds : List Doc) :
    numberChunksFrom i ds
      = (List.enumFrom i ds).map
          (fun p => "[" ++ toString p.1 ++ "] " ++ p.2.text) := by
  induction ds generalizing i with
  | nil => rfl
  | cons d ds ih => simp [numberChunksFrom, List.enumFrom, ih]

lemma length_numberChunksFrom (i : Nat) (ds : List Doc) :
    (numberChunksFrom i ds).length = ds.length := by
  rw [numberChunksFrom_eq_enumFrom]
  simp

lemma length_numberChunksMinFrom_le (min_score : ℚ) (i : Nat)
    (ds : List Doc) :
    (numberChunksMinFrom min_score i ds).length ≤ ds.length := by
  induction ds generalizing i with
  | nil => simp [numberChunksMinFrom]
  | cons d ds ih =>
    by_cases h : d.score < min_score <;>
      simp [numberChunksMinFrom, h]
    · exact Nat.le_succ_of_le (ih (i + 1))
    · exact ih (i + 1)

lemma numberChunksMinFrom_eq_nil_iff (min_score : ℚ) (i : Nat)
    (ds : List Doc) :
    numberChunksMinFrom min_score i ds = []
      ↔ ∀ d ∈ ds, d.score < min_score := by
  induction ds generalizing i with
  | nil => simp [numberChunksMinFrom]
  | cons d ds ih =>
    by_cases h : d.score < min_score <;>
      simp [numberChunksMinFrom, h]
    exact ih (i + 1)

lemma string_length_zero_eq_empty {s : String} (h : s.length = 0) :
    s = "" := by
  cases s with
  | mk data =>
    cases data with
    | nil => rfl
    | cons c cs => simp [String.length] at h

lemma chunk_ne_empty (s t : String) : "[" ++ s ++ "] " ++ t ≠ "" := by
  intro h
  have hlen : ("[" ++ s ++ "] " ++ t).length = 0 := by
    rw [h]
    rfl
  rw [String.length_append, String.length_append,
    String.length_append] at hlen
  have h1 : "[".length = 1 := rfl
  rw [h1] at hlen
  omega

lemma pyJoin_ne_empty (sep : String) (cs : List String)
    (hne : cs ≠ []) (hmem : ∀ c ∈ cs, c ≠ "") :
    pyJoin sep cs ≠ "" := by
  match cs with
  | [] => exact absurd rfl hne
  | [c] =>
    show c ≠ ""
    exact hmem c (by simp)
  | c :: c2 :: cs =>
    show c ++ sep ++ pyJoin sep (c2 :: cs) ≠ ""
    intro h
    have hlen : (c ++ sep ++ pyJoin sep (c2 :: cs)).length = 0 := by
      rw [h]
      rfl
    rw [String.length_append, String.length_append] at hlen
    have hc : c = "" := string_length_zero_eq_empty (by omega)
    exact hmem c (by simp) hc

lemma mem_numberChunksFrom_ne (i : Nat) (ds : List Doc) :
    ∀ c ∈ numberChunksFrom i ds, c ≠ "" := by
  induction ds generalizing i with
  | nil => simp [numberChunksFrom]
  | cons d ds ih =>
    intro c hc
    rcases (by simpa [numberChunksFrom] using hc :
        c = "[" ++ toString i ++ "] " ++ d.text
          ∨ c ∈ numberChunksFrom (i + 1) ds) with h | h
    · rw [h]
      exact chunk_ne_empty _ _
    · exact ih (i + 1) c h

lemma mem_numberChunksMinFrom_ne (min_score : ℚ) (i : Nat)
    (ds : List Doc) :
    ∀ c ∈ numberChunksMinFrom min_score i ds, c ≠ "" := by
  induction ds generalizing i with
  | nil => simp [numberChunksMinFrom]
  | cons d ds ih =>
    intro c hc
    by_cases h : d.score < min_score
    · rw [numberChunksMinFrom, if_pos h] at hc
      exact ih (i + 1) c hc
    · rw [numberChunksMinFrom, if_neg h] at hc
      rcases List.mem_cons.mp hc with h2 | h2
      · rw [h2]
        exact chunk_ne_empty _ _
      · exact ih (i + 1) c h2

lemma numberChunksMinFrom_eq_filter (min_score : ℚ) (i : Nat)
    (ds : List Doc) :
    numberChunksMinFrom min_score i ds
      = ((List.enumFrom i ds).filter
          (fun p => ! decide (p.2.score < min_score))).map
          (fun p => "[" ++ toString p.1 ++ "] " ++ p.2.text) := by
  induction ds generalizing i with
  | nil => rfl
  | cons d ds ih =>
    by_cases h : d.score < min_score <;>
      simp [numberChunksMinFrom, List.enumFrom, List.filter, h, ih]

lemma get_context_plain_of_ne_nil (matchList : List PMatch)
    (h : matchList ≠ []) :
    VectorStore.get_context matchList
      = pyJoin "\n\n" (numberChunksFrom 1 (VectorStore.query matchList)) := by
  have hie : (VectorStore.query matchList).isEmpty = false := by
    rw [VectorStore.query_eq_map]
    cases matchList with
    | nil => exact absurd rfl h
    | cons m ms => simp
  simp [VectorStore.get_context, hie]

lemma get_context_tools_of_ne_nil (matchList : List PMatch)
    (q : ℚ) (h : matchList ≠ []) :
    ToolsVectorStore.get_context matchList q
      = pyJoin "\n\n" (numberChunksMinFrom q 1
          (ToolsVectorStore.query_text matchList)) := by
  have hie : (ToolsVectorStore.query_text matchList).isEmpty = false := by
    rw [ToolsVectorStore.query_text_eq_map]
    cases matchList with
    | nil => exact absurd rfl h
    | cons m ms => simp
  simp [ToolsVectorStore.get_context, hie]

/-- Claim C6: `get_context` (plain variant from `vector_store.py` and
tools variant from `tools/pinecone/vector_store.py`, the latter with a
`min_score` cutoff) returns `""` exactly when the match list is empty —
or, in the tools variant, when it is empty or every match scores below
`min_score` — and otherwise returns the matches' text fields as numbered
`"[i] text"` chunks joined by blank lines, in store order, one chunk per
match in the plain variant and at most `top_k` chunks in both variants
whenever the store returned at most `top_k` matches. -/
theorem get_context_formats_matches (matchList : List PMatch)
    (min_score : ℚ) (top_k : Nat) :
    (VectorStore.get_context matchList = "" ↔ matchList = [])
    ∧ (matchList ≠ [] →
        VectorStore.get_context matchList
          = pyJoin "\n\n"
              ((List.enumFrom 1 matchList).map
                (fun p => "[" ++ toString p.1 ++ "] "
                  ++ p.2.metadataText.getD "")))
    ∧ (numberChunksFrom 1 (VectorStore.query matchList)).length
        = matchList.length
    ∧ (matchList.length ≤ top_k →
        (numberChunksFrom 1 (VectorStore.query matchList)).length ≤ top_k)
    ∧ (ToolsVectorStore.get_context matchList min_score = ""
        ↔ matchList = [] ∨ ∀ m ∈ matchList, m.score < min_score)
    ∧ (matchList.length ≤ top_k →
        (numberChunksMinFrom min_score 1
          (ToolsVectorStore.query_text matchList)).length ≤ top_k)
    ∧ (matchList ≠ [] →
        ToolsVectorStore.get_context matchList min_score
          = pyJoin "\n\n"
              (((List.enumFrom 1 matchList).filter
                  (fun p => ! decide (p.2.score < min_score))).map
                (fun p => "[" ++ toString p.1 ++ "] "
                  ++ p.2.metadataText.getD ""))) := by
  have hlen3 : (numberChunksFrom 1 (VectorStore.query matchList)).length
      = matchList.length := by
    rw [length_numberChunksFrom, VectorStore.query_eq_map]
    simp
  refine ⟨?_, ?_, hlen3, ?_, ?_, ?_, ?_⟩
  · constructor
    · intro h
      by_contra hne
      have hres := get_context_plain_of_ne_nil matchList hne
      rw [hres] at h
      have hch : numberChunksFrom 1 (VectorStore.query matchList) ≠ [] := by
        intro hc
        rw [hc] at hlen3
        cases matchList with
        | nil => exact hne rfl
        | cons m ms => simp at hlen3
      exact pyJoin_ne_empty "\n\n" _ hch
        (mem_numberChunksFrom_ne 1 _) h
    · intro h
      subst h
      rfl
  · intro h
    rw [get_context_plain_of_ne_nil matchList h,
      VectorStore.query_eq_map, numberChunksFrom_eq_enumFrom,
      List.enumFrom_map, List.map_map]
    have hfun : ((fun p : Nat × Doc => "[" ++ toString p.1 ++ "] " ++ p.2.text)
        ∘ Prod.map id
          (fun m : PMatch => (⟨m.id, m.score, m.metadataText.getD ""⟩ : Doc)))
        = fun p : Nat × PMatch =>
            "[" ++ toString p.1 ++ "] " ++ p.2.metadataText.getD "" := by
      funext p
      rfl
    rw [hfun]
  · intro h
    rw [hlen3]
    exact h
  · constructor
    · intro h
      by_cases hnil : matchList = []
      · exact Or.inl hnil
      · right
        rw [get_context_tools_of_ne_nil matchList min_score hnil]
          at h
        by_cases hch : numberChunksMinFrom min_score 1
            (ToolsVectorStore.query_text matchList) = []
        · have hall := (numberChunksMinFrom_eq_nil_iff min_score 1 _).mp hch
          intro m hm
          exact hall
            (⟨m.id, m.score, m.metadataText.getD ""⟩ : Doc)
            (by rw [ToolsVectorStore.query_text_eq_map]
                exact List.mem_map_of_mem _ hm)
        · exact absurd h (pyJoin_ne_empty "\n\n" _ hch
            (mem_numberChunksMinFrom_ne min_score 1 _))
    · intro h
      by_cases hnil : matchList = []
      · subst hnil
        rfl
      · rcases h with h | hall
        · exact absurd h hnil
        · rw [get_context_tools_of_ne_nil matchList min_score hnil]
          have hch : numberChunksMinFrom min_score 1
              (ToolsVectorStore.query_text matchList) = [] := by
            rw [numberChunksMinFrom_eq_nil_iff]
            intro d hd
            rw [ToolsVectorStore.query_text_eq_map] at hd
            rcases List.mem_map.mp hd with ⟨m, hm, hfm⟩
            rw [← hfm]
            exact hall m hm
          rw [hch]
          rfl
  · intro h
    refine le_trans (length_numberChunksMinFrom_le min_score 1 _) ?_
    rw [ToolsVectorStore.query_text_eq_map]
    simpa using h
  · intro h
    rw [get_context_tools_of_ne_nil matchList min_score h,
      ToolsVectorStore.query_text_eq_map, numberChunksMinFrom_eq_filter,
      List.enumFrom_map, List.filter_map, List.map_map]
    have hcond : ((fun p : Nat × Doc => ! decide (p.2.score < min_score))
        ∘ Prod.map id
          (fun m : PMatch => (⟨m.id, m.score, m.metadataText.getD ""⟩ : Doc)))
        = fun p : Nat × PMatch => ! decide (p.2.score < min_score) := by
      funext p
      rfl
    have hfmt : ((fun p : Nat × Doc => "[" ++ toString p.1 ++ "] " ++ p.2.text)
        ∘ Prod.map id
          (fun m : PMatch => (⟨m.id, m.score, m.metadataText.getD ""⟩ : Doc)))
        = fun p : Nat × PMatch =>
            "[" ++ toString p.1 ++ "] " ++ p.2.metadataText.getD "" := by
      funext p
      rfl
    rw [hcond, hfmt]

/-- Witness for C6 at a concrete one-match store result: the formatted
context and the chunk-count bounds at `top_k = 5`. -/
theorem get_context_formats_matches_witness :
    VectorStore.get_context [(⟨"a", (1 : ℚ), some "alpha"⟩ : PMatch)]
      = pyJoin "\n\n"
          ((List.enumFrom 1 [(⟨"a", (1 : ℚ), some "alpha"⟩ : PMatch)]).map
            (fun p => "[" ++ toString p.1 ++ "] "
              ++ p.2.metadataText.getD ""))
    ∧ (numberChunksFrom 1
        (VectorStore.query [(⟨"a", (1 : ℚ), some "alpha"⟩ : PMatch)])).length
        ≤ 5
    ∧ (numberChunksMinFrom (1 / 2 : ℚ) 1
        (ToolsVectorStore.query_text
          [(⟨"a", (1 : ℚ), some "alpha"⟩ : PMatch)])).length ≤ 5
    ∧ ToolsVectorStore.get_context
        [(⟨"a", (1 : ℚ), some "alpha"⟩ : PMatch)] (1 / 2)
      = pyJoin "\n\n"
          (((List.enumFrom 1 [(⟨"a", (1 : ℚ), some "alpha"⟩ : PMatch)]).filter
              (fun p => ! decide (p.2.score < (1 / 2 : ℚ)))).map
            (fun p => "[" ++ toString p.1 ++ "] "
              ++ p.2.metadataText.getD "")) :=
  ⟨(get_context_formats_matches [(⟨"a", (1 : ℚ), some "alpha"⟩ : PMatch)]
      (1 / 2) 5).2.1 (by decide),
   (get_context_formats_matches [(⟨"a", (1 : ℚ), some "alpha"⟩ : PMatch)]
      (1 / 2) 5).2.2.2.1 (by decide),
   (get_context_formats_matches [(⟨"a", (1 : ℚ), some "alpha"⟩ : PMatch)]
      (1 / 2) 5).2.2.2.2.2.1 (by decide),
   (get_context_formats_matches [(⟨"a", (1 : ℚ), some "alpha"⟩ : PMatch)]
      (1 / 2) 5).2.2.2.2.2.2 (by decide)⟩
